import Mathlib

/-!
Shallow embedding of the Order Management System core
(`app/main.py`, `app/models.py`, `app/auth.py`).

Conventions of the embedding:
* Python `float` prices are modelled as `ℚ` (the claims under study are
  structural -- which value is stored -- not about rounding).
* `datetime` instants are modelled as `Nat`; `datetime.now(timezone.utc)`
  becomes an explicit `now : Nat` argument threaded into each operation.
* The Mongo collection `db.orders` is a `List StoredOrder` in insertion
  order; `find_one {_id: x}` is "first element with that id",
  `update_one {$set: ...}` patches the first matching element,
  `delete_one` removes it.
* HTTP error responses become an `ErrKind`: 400/422 map to `invalidInput`,
  403 to `forbidden`, 404 to `notFound`.
* FastAPI resolves the `Depends(get_current_admin_user)` dependency before
  the request body is validated and before the handler body runs, so the
  embedded `updateOrder`/`deleteOrder` perform the role check first.
-/

namespace OMS

/-- Error kinds surfaced by the handlers (`HTTPException` status codes). -/
inductive ErrKind where
  | invalidInput
  | forbidden
  | notFound
deriving Repr, DecidableEq

/-- `app/auth.py` `User`: the resolved caller identity (email/username are
derived from `user_id` and irrelevant to the handlers). -/
structure User where
  user_id : String
  role : String
deriving Repr, DecidableEq

/-- `app/models.py` `OrderItem`. -/
structure OrderItem where
  product_id : String
  name : String
  price : ℚ
  quantity : ℤ
deriving Repr, DecidableEq

/-- Pydantic field validation on `OrderItem`: `price` has `gt=0`,
`quantity` has `gt=0`. -/
def itemValid (it : OrderItem) : Bool :=
  decide (0 < it.price) && decide (0 < it.quantity)

/-- `sum(item.price * item.quantity for item in items)`. -/
def sumTotal (items : List OrderItem) : ℚ :=
  items.foldr (fun it acc => it.price * it.quantity + acc) 0

/-- Raw `OrderCreate` request body, before pydantic validation.
`status` defaults to `"Pending"` when the caller omits it; the model
declares it as a plain `str`, so any string passes field validation. -/
structure OrderCreateIn where
  user_id : String
  items : List OrderItem
  status : String
  total_price : Option ℚ
  created_at : Option Nat
  updated_at : Option Nat
deriving Repr, DecidableEq

/-- A validated `OrderCreate` model (after the `postprocess` validator). -/
structure OrderCreate where
  user_id : String
  items : List OrderItem
  status : String
  total_price : ℚ
  created_at : Nat
  updated_at : Nat
deriving Repr, DecidableEq

/-- Pydantic validation pipeline of `OrderCreate`:
field validation (`items` has `min_length=1`, each item `price > 0`,
`quantity > 0`), then the `postprocess` model validator, which
recomputes `total_price` from `items` (discarding any caller-supplied
value) and runs `_set_timestamps`: `created_at` defaults to `now` when
absent, a future `created_at` raises `ValueError` (surfaced as a 422),
and `updated_at` defaults to `now` when absent. -/
def validateOrderCreate (now : Nat) (raw : OrderCreateIn) :
    Except ErrKind OrderCreate :=
  if raw.items.isEmpty then .error .invalidInput
  else if !raw.items.all itemValid then .error .invalidInput
  else if now < raw.created_at.getD now then .error .invalidInput
  else .ok {
    user_id := raw.user_id
    items := raw.items
    status := raw.status
    total_price := sumTotal raw.items
    created_at := raw.created_at.getD now
    updated_at := raw.updated_at.getD now
  }

/-- A persisted order document (`db.orders` entry). -/
structure StoredOrder where
  id : String
  user_id : String
  items : List OrderItem
  status : String
  total_price : ℚ
  created_at : Nat
  updated_at : Nat
deriving Repr, DecidableEq

/-- The `orders` collection, in insertion order. -/
structure DB where
  orders : List StoredOrder
deriving Repr, DecidableEq

/-- `db.orders.find_one({"_id": oid})`: first document with that id. -/
def findOne (db : DB) (oid : String) : Option StoredOrder :=
  db.orders.find? (fun o => o.id == oid)

/-- `POST /orders` (`create_order` in `app/main.py`).
After body validation: the owner check `order_data.user_id !=
current_user.user_id` raises 403 for every caller, admins included;
then non-admins whose status is not `"Pending"` get 403; then the
document is inserted (`newId` is the store-assigned `_id`, fresh by the
repository contract) and the handler returns the re-read document,
which under a fresh id is the inserted one. -/
def createOrder (now : Nat) (caller : User) (raw : OrderCreateIn)
    (newId : String) (db : DB) : Except ErrKind (StoredOrder × DB) :=
  match validateOrderCreate now raw with
  | .error e => .error e
  | .ok oc =>
    if oc.user_id != caller.user_id then
      .error .forbidden
    else if caller.role != "admin" && oc.status != "Pending" then
      .error .forbidden
    else
      let stored : StoredOrder := {
        id := newId
        user_id := oc.user_id
        items := oc.items
        status := oc.status
        total_price := oc.total_price
        created_at := oc.created_at
        updated_at := oc.updated_at
      }
      .ok (stored, ⟨db.orders ++ [stored]⟩)

/-- `bson.ObjectId.is_valid` on a string: a 24-character hex string. -/
def isHexChar (c : Char) : Bool :=
  c.isDigit || (('a' ≤ c) && (c ≤ 'f')) || (('A' ≤ c) && (c ≤ 'F'))

/-- Well-formedness of an order id (`ObjectId.is_valid(order_id)`). -/
def isValidObjectId (s : String) : Bool :=
  s.length == 24 && s.data.all isHexChar

/-- `GET /orders/{order_id}` (`get_order` in `app/main.py`):
id well-formedness check (400), then existence lookup (404), then the
ownership/role check (403), in that order. -/
def getOrder (caller : User) (order_id : String) (db : DB) :
    Except ErrKind StoredOrder :=
  if order_id == "" || !isValidObjectId order_id then
    .error .invalidInput
  else
    match findOne db order_id with
    | none => .error .notFound
    | some order =>
      if caller.role != "admin" && order.user_id != caller.user_id then
        .error .forbidden
      else
        .ok order

/-- The query dict built by `list_orders`: an implicit `user_id` equality
for non-admins, plus a `status` equality when the `status` query
parameter is truthy (a non-`None`, non-empty string — `if status:`). -/
def queryPred (caller : User) (statusFilter : Option String)
    (o : StoredOrder) : Bool :=
  (caller.role == "admin" || o.user_id == caller.user_id) &&
  (match statusFilter with
   | none => true
   | some s => s.isEmpty || o.status == s)

/-- `skip = (page - 1) * limit`; Python ints are unbounded, so `ℤ`. -/
def computeSkip (page limit : ℤ) : ℤ := (page - 1) * limit

/-- Stable insertion of `o` into a list sorted by `created_at`
descending: `o` goes after every earlier element with the same or a
larger key, preserving insertion order among equal keys. -/
def insertDesc (o : StoredOrder) : List StoredOrder → List StoredOrder
  | [] => [o]
  | x :: xs =>
    if o.created_at ≤ x.created_at then x :: insertDesc o xs
    else o :: x :: xs

/-- `.sort("created_at", -1)`: stable sort, most recent first
(modelled as stable insertion sort). -/
def sortByCreatedDesc : List StoredOrder → List StoredOrder
  | [] => []
  | x :: xs => insertDesc x (sortByCreatedDesc xs)

structure OrderListResponse where
  orders : List StoredOrder
  total : Nat
  page : ℤ
  limit : ℤ
  total_pages : ℤ
deriving Repr, DecidableEq

/-- `GET /orders` (`list_orders` in `app/main.py`).
One query dict is built and passed both to `count_documents` and to
`find`; `skip = (page - 1) * limit`; when that value is negative the
driver (`pymongo.Cursor.skip`) raises, modelled as `none`;
`total_pages = (total + limit - 1) // limit` with Python floor
division (`Int.fdiv`). -/
def listOrders (caller : User) (statusFilter : Option String)
    (page limit : ℤ) (db : DB) : Option OrderListResponse :=
  let pred := queryPred caller statusFilter
  let matching := db.orders.filter pred
  let skip := computeSkip page limit
  if skip < 0 then none
  else some {
    orders := ((sortByCreatedDesc matching).drop skip.toNat).take limit.toNat
    total := matching.length
    page := page
    limit := limit
    total_pages := Int.fdiv (matching.length + limit - 1) limit
  }

/-- The enumerated statuses of `OrderUpdate.status`
(`Literal["Pending", "Processing", "Shipped", "Delivered", "Cancelled"]`). -/
def statusEnum : List String :=
  ["Pending", "Processing", "Shipped", "Delivered", "Cancelled"]

/-- Raw `OrderUpdate` request body (`PATCH /orders/{id}`), before
pydantic validation; `none` means the field is absent from the patch.
(A JSON body carrying an explicit `null` for an `Optional` field is out
of scope of this embedding; the patches modelled here either omit a
field or supply a proper value for it.) -/
structure OrderUpdateIn where
  status : Option String
  items : Option (List OrderItem)
  total_price : Option ℚ
  updated_at : Option Nat
deriving Repr, DecidableEq

/-- The `$set` document produced by
`update_data.model_dump(exclude_unset=True)`: caller-supplied fields,
plus `updated_at` (always assigned by `_set_update_time`, hence always
in the fields-set) and `total_price` when `items` is present
(assigned by `_update_total_price`). -/
structure UpdateDict where
  status : Option String
  items : Option (List OrderItem)
  total_price : Option ℚ
  updated_at : Nat
deriving Repr, DecidableEq

/-- Pydantic validation of `OrderUpdate`: `status`, when present, must
be one of the enumerated literals (422 otherwise); each supplied item
must pass field validation; then the `postprocess` validator recomputes
`total_price` when `items` is present and always stamps
`updated_at = now`. -/
def validateOrderUpdate (now : Nat) (p : OrderUpdateIn) :
    Except ErrKind UpdateDict :=
  if (match p.status with
      | none => false
      | some s => !statusEnum.contains s) then .error .invalidInput
  else if (match p.items with
           | none => false
           | some its => !its.all itemValid) then .error .invalidInput
  else .ok {
    status := p.status
    items := p.items
    total_price := match p.items with
      | some its => some (sumTotal its)
      | none => p.total_price
    updated_at := now
  }

/-- Applying the `$set` document to a stored document. -/
def applySet (u : UpdateDict) (o : StoredOrder) : StoredOrder := {
  id := o.id
  user_id := o.user_id
  items := u.items.getD o.items
  status := u.status.getD o.status
  total_price := u.total_price.getD o.total_price
  created_at := o.created_at
  updated_at := u.updated_at
}

/-- `update_one({"_id": oid}, {"$set": ...})`: patch the first matching
document (Mongo updates a single document; `find_one` reads the same
first match). -/
def updateFirst (l : List StoredOrder) (oid : String)
    (f : StoredOrder → StoredOrder) : List StoredOrder :=
  match l with
  | [] => []
  | o :: rest =>
    if o.id == oid then f o :: rest else o :: updateFirst rest oid f

/-- `PATCH /orders/{order_id}` (`update_order` in `app/main.py`).
The `Depends(get_current_admin_user)` dependency rejects non-admins
with 403 before the body is validated and before the handler body runs;
then the body is validated, the id checked (400), the document looked
up (404), the `$set` applied, and the handler returns the re-read
document. -/
def updateOrder (now : Nat) (caller : User) (order_id : String)
    (p : OrderUpdateIn) (db : DB) : Except ErrKind (StoredOrder × DB) :=
  if caller.role != "admin" then
    .error .forbidden
  else
    match validateOrderUpdate now p with
    | .error e => .error e
    | .ok u =>
      if !isValidObjectId order_id then
        .error .invalidInput
      else
        match findOne db order_id with
        | none => .error .notFound
        | some order =>
          .ok (applySet u order, ⟨updateFirst db.orders order_id (applySet u)⟩)

/-- `delete_one({"_id": oid})`: remove the first matching document. -/
def deleteFirst (l : List StoredOrder) (oid : String) : List StoredOrder :=
  match l with
  | [] => []
  | o :: rest => if o.id == oid then rest else o :: deleteFirst rest oid

/-- `DELETE /orders/{order_id}` (`delete_order` in `app/main.py`).
Role check first (dependency), then id validation (400), then the
delete; `deleted_count == 0` yields 404. -/
def deleteOrder (caller : User) (order_id : String) (db : DB) :
    Except ErrKind DB :=
  if caller.role != "admin" then
    .error .forbidden
  else if !isValidObjectId order_id then
    .error .invalidInput
  else
    match findOne db order_id with
    | none => .error .notFound
    | some _ => .ok ⟨deleteFirst db.orders order_id⟩

/-! ### Concrete fixtures used by witnesses and counterexamples -/

/-- A well-formed ObjectId string. -/
def oidA : String := "aaaaaaaaaaaaaaaaaaaaaaaa"

/-- A second well-formed ObjectId string, absent from `db1`. -/
def oidB : String := "bbbbbbbbbbbbbbbbbbbbbbbb"

def uAdmin : User := ⟨"root", "admin"⟩

def uAlice : User := ⟨"alice", "customer"⟩

def uBob : User := ⟨"bob", "customer"⟩

def itemA : OrderItem := ⟨"p1", "Laptop", 100, 1⟩

def itemB : OrderItem := ⟨"p2", "Mouse", 25, 2⟩

/-- An order owned by alice, stored under `oidA`. -/
def ordA : StoredOrder := ⟨oidA, "alice", [itemA], "Pending", 100, 1, 1⟩

/-- An order owned by bob, stored under `oidB`. -/
def ordB : StoredOrder := ⟨oidB, "bob", [itemB], "Shipped", 50, 2, 2⟩

def db0 : DB := ⟨[]⟩

def db1 : DB := ⟨[ordA]⟩

def db2 : DB := ⟨[ordA, ordB]⟩

/-- A creation request by alice for herself, with no caller-supplied
derived fields. -/
def rawPlain : OrderCreateIn := ⟨"alice", [itemA], "Pending", none, none, none⟩

/-- The order stored by `createOrder 10 uAlice rawPlain oidA db0`. -/
def storedPlain : StoredOrder := ⟨oidA, "alice", [itemA], "Pending", 100, 10, 10⟩

/-- `ordA` after an empty patch at time 20. -/
def ordA20 : StoredOrder := ⟨oidA, "alice", [itemA], "Pending", 100, 1, 20⟩

/-- `ordA` after a patch replacing its items with `[itemB]` at time 20. -/
def ordA20B : StoredOrder := ⟨oidA, "alice", [itemB], "Pending", 50, 1, 20⟩

/-- `ordA` after a patch supplying only `total_price = 999` at time 20. -/
def ord999 : StoredOrder := ⟨oidA, "alice", [itemA], "Pending", 999, 1, 20⟩

/-- An admin creation request for themselves with a non-enumerated
status string. -/
def rawBogus : OrderCreateIn := ⟨"root", [itemA], "Bogus", none, none, none⟩

/-- The order stored by `createOrder 10 uAdmin rawBogus oidA db0`. -/
def storedBogus : StoredOrder := ⟨oidA, "root", [itemA], "Bogus", 100, 10, 10⟩

/-- A creation request by alice carrying caller-chosen timestamps
`created_at = 5`, `updated_at = 3` (both in the past at `now = 10`). -/
def rawTamper : OrderCreateIn := ⟨"alice", [itemA], "Pending", none, some 5, some 3⟩

/-- The order stored by `createOrder 10 uAlice rawTamper oidA db0`. -/
def storedTamper : StoredOrder := ⟨oidA, "alice", [itemA], "Pending", 100, 5, 3⟩

/-- The listing an admin obtains over `db2` with no filter. -/
def rAdmin2 : OrderListResponse := ⟨[ordB, ordA], 2, 1, 10, 1⟩

/-- The listing alice obtains over `db2` with no filter, `limit = 1`. -/
def rAlice1 : OrderListResponse := ⟨[ordA], 1, 1, 1, 1⟩

/-! ### Helper lemmas -/

theorem validateOrderCreate_ok_fields {now : Nat} {raw : OrderCreateIn}
    {oc : OrderCreate} (h : validateOrderCreate now raw = .ok oc) :
    oc.user_id = raw.user_id ∧ oc.status = raw.status ∧
    oc.items = raw.items ∧ oc.total_price = sumTotal raw.items ∧
    oc.created_at = raw.created_at.getD now ∧
    oc.updated_at = raw.updated_at.getD now ∧
    oc.created_at ≤ now := by
  unfold validateOrderCreate at h
  split at h
  · exact absurd h (by simp)
  · split at h
    · exact absurd h (by simp)
    · split at h
      · exact absurd h (by simp)
      · rename_i hfut
        cases h
        exact ⟨rfl, rfl, rfl, rfl, rfl, rfl, Nat.le_of_not_lt hfut⟩

theorem validateOrderCreate_ok_of_fields {now : Nat} {raw : OrderCreateIn}
    (h1 : raw.items.isEmpty = false)
    (h2 : raw.items.all itemValid = true)
    (h3 : ¬ now < raw.created_at.getD now) :
    validateOrderCreate now raw = .ok {
      user_id := raw.user_id
      items := raw.items
      status := raw.status
      total_price := sumTotal raw.items
      created_at := raw.created_at.getD now
      updated_at := raw.updated_at.getD now
    } := by
  unfold validateOrderCreate
  rw [h1, h2]
  simp [h3]

theorem createOrder_ok_shape {now : Nat} {caller : User}
    {raw : OrderCreateIn} {newId : String} {db : DB} {r : StoredOrder × DB}
    (h : createOrder now caller raw newId db = .ok r) :
    ∃ oc, validateOrderCreate now raw = .ok oc ∧
      r.1 = ⟨newId, oc.user_id, oc.items, oc.status, oc.total_price,
             oc.created_at, oc.updated_at⟩ ∧
      r.2 = ⟨db.orders ++ [r.1]⟩ := by
  unfold createOrder at h
  split at h
  · exact absurd h (by simp)
  · rename_i oc hv
    refine ⟨oc, hv, ?_⟩
    split at h
    · exact absurd h (by simp)
    · split at h
      · exact absurd h (by simp)
      · cases h
        exact ⟨rfl, rfl⟩

theorem validateOrderUpdate_ok_fields {now : Nat} {p : OrderUpdateIn}
    {u : UpdateDict} (h : validateOrderUpdate now p = .ok u) :
    u.status = p.status ∧ u.items = p.items ∧
    u.total_price = (match p.items with
      | some its => some (sumTotal its)
      | none => p.total_price) ∧
    u.updated_at = now ∧
    (∀ s, p.status = some s → statusEnum.contains s = true) := by
  unfold validateOrderUpdate at h
  split at h
  · exact absurd h (by simp)
  · split at h
    · exact absurd h (by simp)
    · rename_i hst _
      cases h
      refine ⟨rfl, rfl, rfl, rfl, ?_⟩
      intro s hs
      rw [hs] at hst
      simpa using hst

theorem updateOrder_ok_shape {now : Nat} {caller : User} {order_id : String}
    {p : OrderUpdateIn} {db : DB} {r : StoredOrder × DB}
    (h : updateOrder now caller order_id p db = .ok r) :
    caller.role = "admin" ∧
    ∃ u o, validateOrderUpdate now p = .ok u ∧
      findOne db order_id = some o ∧
      r.1 = applySet u o ∧
      r.2 = ⟨updateFirst db.orders order_id (applySet u)⟩ := by
  unfold updateOrder at h
  split at h
  · exact absurd h (by simp)
  · rename_i hrole
    refine ⟨by simpa using hrole, ?_⟩
    split at h
    · exact absurd h (by simp)
    · rename_i u hu
      split at h
      · exact absurd h (by simp)
      · split at h
        · exact absurd h (by simp)
        · rename_i o ho
          cases h
          exact ⟨u, o, hu, ho, rfl, rfl⟩

/-- `update_one` followed by `find_one` on the same id reads back the
patched document, provided the patch does not change the id. -/
theorem find_updateFirst_eq {l : List StoredOrder} {oid : String}
    {f : StoredOrder → StoredOrder} (hid : ∀ o, (f o).id = o.id) :
    (updateFirst l oid f).find? (fun o => o.id == oid) =
      (l.find? (fun o => o.id == oid)).map f := by
  induction l with
  | nil => rfl
  | cons o rest ih =>
    by_cases hc : (o.id == oid) = true
    · rw [updateFirst, if_pos hc]
      rw [List.find?_cons_of_pos rest (show ((f o).id == oid) = true by
            rw [hid]; exact hc),
          List.find?_cons_of_pos rest hc]
      rfl
    · rw [updateFirst, if_neg hc]
      rw [List.find?_cons_of_neg (updateFirst rest oid f) hc,
          List.find?_cons_of_neg rest hc]
      exact ih

theorem mem_insertDesc {o x : StoredOrder} {l : List StoredOrder} :
    o ∈ insertDesc x l → o = x ∨ o ∈ l := by
  induction l with
  | nil => intro h; simp [insertDesc] at h; exact Or.inl h
  | cons y ys ih =>
    intro h
    rw [insertDesc] at h
    split at h
    · rcases List.mem_cons.mp h with h | h
      · exact Or.inr (by simp [h])
      · rcases ih h with h | h
        · exact Or.inl h
        · exact Or.inr (List.mem_cons_of_mem y h)
    · rcases List.mem_cons.mp h with h | h
      · exact Or.inl h
      · exact Or.inr h

theorem mem_sortByCreatedDesc {o : StoredOrder} {l : List StoredOrder} :
    o ∈ sortByCreatedDesc l → o ∈ l := by
  induction l with
  | nil => intro h; simp [sortByCreatedDesc] at h
  | cons x xs ih =>
    intro h
    rw [sortByCreatedDesc] at h
    rcases mem_insertDesc h with h | h
    · simp [h]
    · exact List.mem_cons_of_mem x (ih h)

/-- Every order on a returned listing page matches the query predicate. -/
theorem mem_page_matches {caller : User} {statusFilter : Option String}
    {page limit : ℤ} {db : DB} {r : OrderListResponse}
    (h : listOrders caller statusFilter page limit db = some r)
    {o : StoredOrder} (ho : o ∈ r.orders) :
    o ∈ db.orders ∧ queryPred caller statusFilter o = true := by
  simp only [listOrders] at h
  split at h
  · exact absurd h (by simp)
  · rename_i hskip
    cases h
    have h1 : o ∈ sortByCreatedDesc (db.orders.filter (queryPred caller statusFilter)) :=
      List.drop_subset _ _ (List.take_subset _ _ ho)
    have h2 : o ∈ db.orders.filter (queryPred caller statusFilter) :=
      mem_sortByCreatedDesc h1
    exact (List.mem_filter).mp h2

/-! ### Evaluation lemmas on the concrete fixtures
(`ℚ` arithmetic is not definitionally transparent, so concrete runs of
the operations are established once here by `simp`/`norm_num`.) -/

theorem sumTotal_itemA : sumTotal [itemA] = 100 := by
  norm_num [sumTotal, itemA]

theorem sumTotal_itemB : sumTotal [itemB] = 50 := by
  norm_num [sumTotal, itemB]

theorem valid_oidA : isValidObjectId oidA = true := by decide

theorem createOrder_plain_eq :
    createOrder 10 uAlice rawPlain oidA db0 =
      .ok (storedPlain, ⟨[storedPlain]⟩) := by
  simp [createOrder, validateOrderCreate, rawPlain, uAlice, itemValid, itemA,
        storedPlain, db0]
  norm_num [sumTotal]

theorem createOrder_bogus_eq :
    createOrder 10 uAdmin rawBogus oidA db0 =
      .ok (storedBogus, ⟨[storedBogus]⟩) := by
  simp [createOrder, validateOrderCreate, rawBogus, uAdmin, itemValid, itemA,
        storedBogus, db0]
  norm_num [sumTotal]

theorem createOrder_tamper_eq :
    createOrder 10 uAlice rawTamper oidA db0 =
      .ok (storedTamper, ⟨[storedTamper]⟩) := by
  simp [createOrder, validateOrderCreate, rawTamper, uAlice, itemValid, itemA,
        storedTamper, db0]
  norm_num [sumTotal]

theorem updateOrder_itemsPatch_eq :
    updateOrder 20 uAdmin oidA ⟨none, some [itemB], none, none⟩ db1 =
      .ok (ordA20B, ⟨[ordA20B]⟩) := by
  simp [updateOrder, uAdmin, validateOrderUpdate, itemValid, itemB,
        valid_oidA, findOne, db1, ordA, updateFirst, applySet, ordA20B]
  norm_num [sumTotal]

theorem updateOrder_emptyPatch_eq :
    updateOrder 20 uAdmin oidA ⟨none, none, none, none⟩ db1 =
      .ok (ordA20, ⟨[ordA20]⟩) := by
  simp [updateOrder, uAdmin, validateOrderUpdate, valid_oidA, findOne, db1,
        ordA, updateFirst, applySet, ordA20]

theorem updateOrder_totalPatch_eq :
    updateOrder 20 uAdmin oidA ⟨none, none, some 999, none⟩ db1 =
      .ok (ord999, ⟨[ord999]⟩) := by
  simp [updateOrder, uAdmin, validateOrderUpdate, valid_oidA, findOne, db1,
        ordA, updateFirst, applySet, ord999]

theorem listOrders_admin_eq :
    listOrders uAdmin none 1 10 db2 = some rAdmin2 := rfl

theorem listOrders_alice_eq :
    listOrders uAlice none 1 1 db2 = some rAlice1 := rfl

/-! ### Claim C2 -/

/-- C2, as stated, is false: `create_order` compares
`order_data.user_id != current_user.user_id` with no admin exemption,
so an admin creating an order for a different owner with valid items
gets `Forbidden` rather than success: concretely, the admin `root`
creating a `Pending` order for owner `bob`. -/
theorem claim_C2_counterexample :
    createOrder 10 uAdmin ⟨"bob", [itemA], "Pending", none, none, none⟩
      oidA db0 = .error .forbidden := by
  rfl

/-- C2 (amended): CreateOrder fails with `Forbidden` whenever the
requested owner id differs from `caller.subject_id`, for every caller
role, admins included; when the owner matches and the caller is an
admin or the requested status is `Pending`, a validated request
succeeds. -/
theorem claim_C2_owner_check (now : Nat) (caller : User)
    (raw : OrderCreateIn) (newId : String) (db : DB) {oc : OrderCreate}
    (hv : validateOrderCreate now raw = .ok oc) :
    (raw.user_id ≠ caller.user_id →
      createOrder now caller raw newId db = .error .forbidden) ∧
    (raw.user_id = caller.user_id →
      (caller.role = "admin" ∨ raw.status = "Pending") →
      (createOrder now caller raw newId db).isOk = true) := by
  obtain ⟨hu, hs, -, -, -, -, -⟩ := validateOrderCreate_ok_fields hv
  constructor
  · intro hne
    unfold createOrder
    rw [hv]
    dsimp only
    have hb : (oc.user_id != caller.user_id) = true := by
      rw [hu]; exact bne_iff_ne.mpr hne
    rw [if_pos hb]
  · intro heq hrole
    unfold createOrder
    rw [hv]
    dsimp only
    have hb : (oc.user_id != caller.user_id) = false := by
      rw [hu, heq]; simp
    have hc : (caller.role != "admin" && oc.status != "Pending") = false := by
      rcases hrole with h | h
      · rw [h]; simp
      · rw [hs, h]; simp
    rw [if_neg (by simp [hb]), if_neg (by simp [hc])]
    rfl

/-- Witness for C2 (amended): the customer `bob` creating an order for
owner `alice` is rejected with `Forbidden`. -/
theorem claim_C2_owner_check_witness :
    createOrder 10 uBob ⟨"alice", [itemA], "Pending", none, none, none⟩
      oidB db0 = .error .forbidden :=
  (claim_C2_owner_check 10 uBob ⟨"alice", [itemA], "Pending", none, none, none⟩
      oidB db0 rfl).1 (by decide)

/-! ### Claim C3 -/

/-- C3: the code contradicts the claim (and the repository's own test
`test_create_order_with_invalid_status`, which expects a 422 for an
out-of-enumeration status at creation): `OrderCreate.status` is a plain
`str`, so an admin creating an order with status `"Bogus"` succeeds and
the stored status is outside the fixed enumeration. -/
theorem claim_C3_invalid_status_stored :
    createOrder 10 uAdmin rawBogus oidA db0 =
      .ok (storedBogus, ⟨[storedBogus]⟩)
    ∧ storedBogus.status = "Bogus"
    ∧ statusEnum.contains "Bogus" = false :=
  ⟨createOrder_bogus_eq, rfl, by decide⟩

/-! ### Claim C9 -/

/-- C9, as stated, is false: at `page = 0`, `limit = 10` the listing
offset `skip = (page - 1) * limit` is `-10`, which is negative. -/
theorem claim_C9_counterexample : computeSkip 0 10 < 0 := by decide

/-- C9 (amended): Python integers are unbounded so no underflow can
occur, but for every `page < 1` and `limit ≥ 1` the unclamped
computation `skip = (page - 1) * limit` is negative, and the fetch is
rejected downstream (the driver raises on a negative skip, modelled as
`listOrders` returning `none`). -/
theorem claim_C9_negative_skip (page limit : ℤ)
    (hp : page < 1) (hl : 1 ≤ limit) :
    computeSkip page limit < 0 ∧
    ∀ caller statusFilter db,
      listOrders caller statusFilter page limit db = none := by
  have hneg : computeSkip page limit < 0 := by
    unfold computeSkip
    exact mul_neg_of_neg_of_pos (by omega) (by omega)
  refine ⟨hneg, ?_⟩
  intro caller statusFilter db
  simp only [listOrders]
  rw [if_pos hneg]

/-- Witness for C9 (amended) at `page = 0`, `limit = 10`. -/
theorem claim_C9_negative_skip_witness :
    computeSkip 0 10 < 0 ∧ listOrders uAlice none 0 10 db1 = none :=
  ⟨(claim_C9_negative_skip 0 10 (by decide) (by decide)).1,
   (claim_C9_negative_skip 0 10 (by decide) (by decide)).2 uAlice none db1⟩

/-! ### Claim C1 -/

/-- C1, as stated, is false: `OrderUpdate` exposes a caller-settable
`total_price` field, and `_update_total_price` only overwrites it when
`items` is present. A patch `{total_price: 999}` with no `items` on an
order whose items sum to 100 stores `total_price = 999`, breaking
`total_price = Σ price * quantity`. -/
theorem claim_C1_counterexample :
    updateOrder 20 uAdmin oidA ⟨none, none, some 999, none⟩ db1 =
      .ok (ord999, ⟨[ord999]⟩)
    ∧ ord999.total_price ≠ sumTotal ord999.items := by
  refine ⟨updateOrder_totalPatch_eq, ?_⟩
  rw [show ord999.items = [itemA] from rfl, sumTotal_itemA]
  norm_num [ord999]

/-- C1 (amended): CreateOrder always recomputes `total_price` from
items, ignoring any caller-supplied total; UpdateOrder recomputes it
when `items` is in the patch; when `items` is absent, `total_price` is
untouched only if the patch does not itself carry `total_price` — a
caller-supplied `total_price` without `items` is stored verbatim, so
the invariant is not protected against UpdateOrder input. -/
theorem claim_C1_total_price (now : Nat) (caller : User) :
    (∀ raw newId db r, createOrder now caller raw newId db = .ok r →
      r.1.total_price = sumTotal r.1.items) ∧
    (∀ oid p db r its, updateOrder now caller oid p db = .ok r →
      p.items = some its →
      r.1.items = its ∧ r.1.total_price = sumTotal its) ∧
    (∀ oid p db r o, updateOrder now caller oid p db = .ok r →
      p.items = none → p.total_price = none → findOne db oid = some o →
      r.1.total_price = o.total_price) := by
  refine ⟨?_, ?_, ?_⟩
  · intro raw newId db r h
    obtain ⟨oc, hv, hr1, -⟩ := createOrder_ok_shape h
    obtain ⟨-, -, hitems, htot, -, -, -⟩ := validateOrderCreate_ok_fields hv
    rw [hr1]
    dsimp only
    rw [htot, hitems]
  · intro oid p db r its h hits
    obtain ⟨-, u, o, hu, -, hr1, -⟩ := updateOrder_ok_shape h
    obtain ⟨-, hui, hut, -, -⟩ := validateOrderUpdate_ok_fields hu
    rw [hr1]
    simp [applySet, hui, hut, hits]
  · intro oid p db r o h hits htp hfind
    obtain ⟨-, u, o₀, hu, hfind₀, hr1, -⟩ := updateOrder_ok_shape h
    obtain ⟨-, -, hut, -, -⟩ := validateOrderUpdate_ok_fields hu
    have ho : o₀ = o := by
      rw [hfind₀] at hfind
      exact Option.some.inj hfind
    rw [hr1, ho]
    simp [applySet, hut, hits, htp]

/-- Witness for C1 (amended): created total equals the item sum;
a patch with items `[itemB]` stores their sum (50); a patch touching
neither `items` nor `total_price` leaves the total at 100. -/
theorem claim_C1_total_price_witness :
    (storedPlain.total_price = sumTotal storedPlain.items) ∧
    (ordA20B.items = [itemB] ∧ ordA20B.total_price = sumTotal [itemB]) ∧
    (ordA20.total_price = ordA.total_price) :=
  ⟨(claim_C1_total_price 10 uAlice).1 rawPlain oidA db0
      (storedPlain, ⟨[storedPlain]⟩) createOrder_plain_eq,
   (claim_C1_total_price 20 uAdmin).2.1 oidA ⟨none, some [itemB], none, none⟩
      db1 (ordA20B, ⟨[ordA20B]⟩) [itemB] updateOrder_itemsPatch_eq rfl,
   (claim_C1_total_price 20 uAdmin).2.2 oidA ⟨none, none, none, none⟩
      db1 (ordA20, ⟨[ordA20]⟩) ordA updateOrder_emptyPatch_eq rfl rfl rfl⟩

/-! ### Claim C4 -/

/-- C4, as stated, is false: `_set_timestamps` only fills timestamps
that the caller did not supply. A creation at `now = 10` carrying
`created_at = 5`, `updated_at = 3` persists exactly those values, so
the stored timestamps are not the call time and
`created_at ≤ updated_at` fails. -/
theorem claim_C4_counterexample :
    createOrder 10 uAlice rawTamper oidA db0 =
      .ok (storedTamper, ⟨[storedTamper]⟩)
    ∧ storedTamper.created_at ≠ 10
    ∧ ¬ storedTamper.created_at ≤ storedTamper.updated_at :=
  ⟨createOrder_tamper_eq, by decide, by decide⟩

/-- C4 (amended): for every successful CreateOrder the stored
`created_at` and `updated_at` equal `now` whenever the caller did not
supply them (hence `created_at = updated_at` when neither is supplied),
and the stored `created_at` never exceeds `now` (future values are
rejected); caller-supplied past timestamps are persisted as given. -/
theorem claim_C4_timestamps (now : Nat) (caller : User)
    (raw : OrderCreateIn) (newId : String) (db : DB) (r : StoredOrder × DB)
    (h : createOrder now caller raw newId db = .ok r) :
    (raw.created_at = none → r.1.created_at = now) ∧
    (raw.updated_at = none → r.1.updated_at = now) ∧
    (raw.created_at = none → raw.updated_at = none →
      r.1.created_at = r.1.updated_at) ∧
    r.1.created_at ≤ now := by
  obtain ⟨oc, hv, hr1, -⟩ := createOrder_ok_shape h
  obtain ⟨-, -, -, -, hca, hua, hle⟩ := validateOrderCreate_ok_fields hv
  rw [hr1]
  dsimp only
  refine ⟨?_, ?_, ?_, hle⟩
  · intro hc
    rw [hca, hc]
    rfl
  · intro huu
    rw [hua, huu]
    rfl
  · intro hc huu
    rw [hca, hua, hc, huu]

/-- Witness for C4 (amended): alice's plain creation at `now = 10`
stores `created_at = updated_at = 10`. -/
theorem claim_C4_timestamps_witness :
    storedPlain.created_at = 10 ∧ storedPlain.updated_at = 10 ∧
    storedPlain.created_at ≤ 10 :=
  have h := claim_C4_timestamps 10 uAlice rawPlain oidA db0
    (storedPlain, ⟨[storedPlain]⟩) createOrder_plain_eq
  ⟨h.1 rfl, h.2.1 rfl, h.2.2.2⟩

/-! ### Claim C5 -/

/-- C5: UpdateOrder and DeleteOrder resolve the admin dependency before
the order id is parsed or looked up, so every non-admin caller gets
`Forbidden` for every id (well-formed or not, existing or not) and
every patch, and cannot distinguish existing from missing ids. -/
theorem claim_C5_admin_gate (now : Nat) (caller : User) (order_id : String)
    (p : OrderUpdateIn) (db : DB) (h : caller.role ≠ "admin") :
    updateOrder now caller order_id p db = .error .forbidden ∧
    deleteOrder caller order_id db = .error .forbidden := by
  have hb : (caller.role != "admin") = true := bne_iff_ne.mpr h
  constructor
  · unfold updateOrder
    rw [if_pos hb]
  · unfold deleteOrder
    rw [if_pos hb]

/-- Witness for C5: bob (a customer) on a malformed id. -/
theorem claim_C5_admin_gate_witness :
    updateOrder 20 uBob "not-an-objectid" ⟨some "Processing", none, none, none⟩
      db1 = .error .forbidden ∧
    deleteOrder uBob "not-an-objectid" db1 = .error .forbidden :=
  claim_C5_admin_gate 20 uBob "not-an-objectid"
    ⟨some "Processing", none, none, none⟩ db1 (by decide)

/-! ### Claim C10 -/

/-- C10: GetOrder checks existence before ownership — for a non-admin
caller and a well-formed id, a missing order yields `NotFound` while an
existing order owned by someone else yields `Forbidden`, so the error
kind reveals whether the id exists. -/
theorem claim_C10_exist_before_owner (caller : User) (oid : String)
    (db : DB) (hrole : caller.role ≠ "admin")
    (hvalid : isValidObjectId oid = true) :
    (findOne db oid = none → getOrder caller oid db = .error .notFound) ∧
    (∀ o, findOne db oid = some o → o.user_id ≠ caller.user_id →
      getOrder caller oid db = .error .forbidden) := by
  have hne : (oid == "") = false := by
    cases hb : (oid == "") with
    | false => rfl
    | true =>
      have he : oid = "" := beq_iff_eq.mp hb
      rw [he] at hvalid
      exact absurd hvalid (by decide)
  have hcond : (oid == "" || !isValidObjectId oid) = false := by
    rw [hne, hvalid]
    rfl
  constructor
  · intro hf
    unfold getOrder
    rw [if_neg (by simp [hcond]), hf]
  · intro o hf hown
    unfold getOrder
    rw [if_neg (by simp [hcond]), hf]
    dsimp only
    have h1 : (caller.role != "admin") = true := bne_iff_ne.mpr hrole
    have h2 : (o.user_id != caller.user_id) = true := bne_iff_ne.mpr hown
    rw [if_pos (by rw [h1, h2]; rfl)]

/-- Witness for C10: bob probing alice's order id gets `NotFound` when
it is absent and `Forbidden` when it exists. -/
theorem claim_C10_exist_before_owner_witness :
    getOrder uBob oidA db0 = .error .notFound ∧
    getOrder uBob oidA db1 = .error .forbidden :=
  ⟨(claim_C10_exist_before_owner uBob oidA db0 (by decide) (by decide)).1 rfl,
   (claim_C10_exist_before_owner uBob oidA db1 (by decide) (by decide)).2
      ordA rfl (by decide)⟩

/-! ### Claim C6 -/

/-- C6: a non-admin caller's listing only ever contains the caller's
own orders, whatever the filter and pagination arguments; the owner
scope is added by the handler, not the caller; and an admin with no
status filter counts (and pages over) the whole collection. -/
theorem claim_C6_listing_scope (caller : User) (statusFilter : Option String)
    (page limit : ℤ) (db : DB) (r : OrderListResponse)
    (h : listOrders caller statusFilter page limit db = some r) :
    (caller.role ≠ "admin" → ∀ o ∈ r.orders, o.user_id = caller.user_id) ∧
    (caller.role = "admin" → statusFilter = none →
      r.total = db.orders.length) := by
  constructor
  · intro hrole o ho
    obtain ⟨-, hpred⟩ := mem_page_matches h ho
    unfold queryPred at hpred
    have h1 : (caller.role == "admin") = false := by
      cases hb : (caller.role == "admin") with
      | false => rfl
      | true => exact absurd (beq_iff_eq.mp hb) hrole
    rw [h1] at hpred
    have h2 := ((Bool.and_eq_true _ _).mp hpred).1
    simpa using h2
  · intro hrole hfilt
    subst hfilt
    have hall : db.orders.filter (queryPred caller none) = db.orders :=
      List.filter_eq_self.mpr (fun o _ => by simp [queryPred, hrole])
    simp only [listOrders] at h
    split at h
    · exact absurd h (by simp)
    · cases h
      dsimp only
      rw [hall]

/-- Witness for C6: the admin listing over the two-order collection
reports the full collection size. -/
theorem claim_C6_listing_scope_witness :
    rAdmin2.total = db2.orders.length :=
  (claim_C6_listing_scope uAdmin none 1 10 db2 rAdmin2
    listOrders_admin_eq).2 rfl rfl

/-! ### Claim C7 -/

/-- C7: a successful UpdateOrder only changes the fields carried by the
`$set` document: fields absent from the patch keep their stored values
(`total_price` is recomputed exactly when `items` is present, per the
partial-update semantics), `id`, `user_id` and `created_at` are never
touched, `updated_at` is always refreshed to `now` — also for an empty
patch — and the response is the document as re-read from the store
after the update. -/
theorem claim_C7_partial_update (now : Nat) (caller : User) (oid : String)
    (p : OrderUpdateIn) (db : DB) (r : StoredOrder × DB) (o : StoredOrder)
    (h : updateOrder now caller oid p db = .ok r)
    (ho : findOne db oid = some o) :
    findOne r.2 oid = some r.1 ∧
    r.1.id = o.id ∧ r.1.user_id = o.user_id ∧
    r.1.created_at = o.created_at ∧
    (p.status = none → r.1.status = o.status) ∧
    (p.items = none → r.1.items = o.items) ∧
    (p.items = none → p.total_price = none →
      r.1.total_price = o.total_price) ∧
    r.1.updated_at = now := by
  obtain ⟨-, u, o₀, hu, ho₀, hr1, hr2⟩ := updateOrder_ok_shape h
  obtain ⟨hus, hui, hut, hunow, -⟩ := validateOrderUpdate_ok_fields hu
  have hoo : o₀ = o := by
    rw [ho₀] at ho
    exact Option.some.inj ho
  subst hoo
  refine ⟨?_, ?_, ?_, ?_, ?_, ?_, ?_, ?_⟩
  · rw [hr2]
    unfold findOne
    dsimp only
    rw [find_updateFirst_eq (f := applySet u) (fun x => rfl),
        show db.orders.find? (fun x => x.id == oid) = some o₀ from ho₀, hr1]
    rfl
  · rw [hr1]; rfl
  · rw [hr1]; rfl
  · rw [hr1]; rfl
  · intro hps
    rw [hr1]
    simp [applySet, hus, hps]
  · intro hpi
    rw [hr1]
    simp [applySet, hui, hpi]
  · intro hpi hpt
    rw [hr1]
    simp [applySet, hut, hpi, hpt]
  · rw [hr1]
    simp [applySet, hunow]

/-- Witness for C7: an admin's empty patch on alice's order at time 20
leaves every stored field unchanged, stamps `updated_at = 20`, and the
response is the re-read stored document. -/
theorem claim_C7_partial_update_witness :
    findOne ⟨[ordA20]⟩ oidA = some ordA20 ∧
    ordA20.user_id = ordA.user_id ∧
    ordA20.status = ordA.status ∧
    ordA20.updated_at = 20 :=
  have h := claim_C7_partial_update 20 uAdmin oidA ⟨none, none, none, none⟩
    db1 (ordA20, ⟨[ordA20]⟩) ordA updateOrder_emptyPatch_eq rfl
  ⟨h.1, h.2.2.1, h.2.2.2.2.1 rfl, h.2.2.2.2.2.2.2⟩

/-! ### Claim C8 -/

/-- C8: for `page ≥ 1` and `limit ≥ 1` the listing succeeds; the
returned `total` is the count of documents matching exactly the query
predicate used to fetch the page, `total_pages = ⌈total / limit⌉`, and
the page is the slice of the sorted matching documents at offset
`skip = (page - 1) * limit`. -/
theorem claim_C8_pagination (caller : User) (statusFilter : Option String)
    (page limit : ℤ) (db : DB) (hp : 1 ≤ page) (hl : 1 ≤ limit) :
    (listOrders caller statusFilter page limit db).isSome = true ∧
    ∀ r, listOrders caller statusFilter page limit db = some r →
      r.total = (db.orders.filter (queryPred caller statusFilter)).length ∧
      r.total_pages = ((r.total ⌈/⌉ limit.toNat : ℕ) : ℤ) ∧
      r.orders = ((sortByCreatedDesc
          (db.orders.filter (queryPred caller statusFilter))).drop
            (computeSkip page limit).toNat).take limit.toNat ∧
      computeSkip page limit = (page - 1) * limit := by
  have hskip : ¬ computeSkip page limit < 0 := by
    unfold computeSkip
    have := mul_nonneg (by omega : (0:ℤ) ≤ page - 1) (by omega : (0:ℤ) ≤ limit)
    omega
  constructor
  · simp only [listOrders]
    rw [if_neg hskip]
    rfl
  · intro r h
    simp only [listOrders] at h
    rw [if_neg hskip] at h
    cases h
    dsimp only
    refine ⟨rfl, ?_, rfl, rfl⟩
    have hln : ((limit.toNat : ℕ) : ℤ) = limit := Int.toNat_of_nonneg (by omega)
    have h1 : ((((db.orders.filter (queryPred caller statusFilter)).length : ℕ) : ℤ)
        + limit - 1)
        = (((db.orders.filter (queryPred caller statusFilter)).length
            + limit.toNat - 1 : ℕ) : ℤ) := by
      omega
    rw [h1, Nat.ceilDiv_eq_add_pred_div, Int.ofNat_fdiv, hln]

/-- Witness for C8: alice's listing over the two-order collection with
`page = limit = 1` has `total = 1` (her single order) and one page. -/
theorem claim_C8_pagination_witness :
    rAlice1.total = (db2.orders.filter (queryPred uAlice none)).length ∧
    rAlice1.total_pages = ((rAlice1.total ⌈/⌉ (1 : ℤ).toNat : ℕ) : ℤ) :=
  have h := (claim_C8_pagination uAlice none 1 1 db2 (by decide)
    (by decide)).2 rAlice1 listOrders_alice_eq
  ⟨h.1, h.2.1⟩

end OMS
